import Mathlib

/-!
# bot-detection-proxy: gating pipeline of `main.go`

A shallow embedding of the request pipeline of `main.go`:
the JSON content extractor (`getRequestContent`, `findValue`), the scoring
call (`processData`), the threat cache (`threatMap`, `lookupThreat`), the
route selector (`handleRequest`) and the request handler (`proxyReq`).

Library code (encoding/json, net/url, net/http, fmt's float formatting) is
not part of the repository; it enters the model through the fields of
`Runtime` and through the network argument of `processData`.
-/

namespace BotProxy

/-! ## float64 -/

/-- A Go `float64`, given by its IEEE 754 binary64 bit pattern (`math.Float64bits`). -/
structure F64 where
  bits : Nat
  deriving DecidableEq, Repr

namespace F64

/-- The sign bit (bit 63). -/
def sign (x : F64) : Nat := x.bits / 2 ^ 63 % 2

/-- The biased exponent (bits 52..62). -/
def expo (x : F64) : Nat := x.bits / 2 ^ 52 % 2 ^ 11

/-- The fraction field (bits 0..51). -/
def frac (x : F64) : Nat := x.bits % 2 ^ 52

/-- NaN: exponent all ones and a non-zero fraction. -/
def isNaN (x : F64) : Bool := x.expo == 2047 && x.frac != 0

/-- Sign-magnitude key: for non-NaN values the IEEE order is the order of
the keys (both zeros have key 0, the infinities are the extreme keys). -/
def key (x : F64) : Int :=
  if x.sign = 0 then ((x.bits % 2 ^ 63 : Nat) : Int) else -((x.bits % 2 ^ 63 : Nat) : Int)

/-- Go's `x > y` on float64: false as soon as one operand is NaN. -/
def gt (x y : F64) : Bool := !x.isNaN && !y.isNaN && decide (y.key < x.key)

/-- Go's `x <= y` on float64: false as soon as one operand is NaN. -/
def le (x y : F64) : Bool := !x.isNaN && !y.isNaN && decide (x.key ≤ y.key)

/-- The literal `0.0`. -/
def zero : F64 := ⟨0⟩

end F64

/-! ## JSON values and `fmt.Sprintf("%v", _)` -/

/-- The dynamic values `json.Unmarshal` stores in an `interface{}`:
`nil`, `bool`, `float64`, `string`, `[]interface{}`, `map[string]interface{}`.
A Go map is represented by an association list read by first match. -/
inductive JSONValue where
  | null
  | bool (b : Bool)
  | number (f : F64)
  | string (s : String)
  | array (xs : List JSONValue)
  | object (m : List (String × JSONValue))

/-- The map read `val, exists := currentMap[key]`. -/
def mapLookup (key : String) : List (String × JSONValue) → Option JSONValue
  | [] => none
  | (k, v) :: rest => if k = key then some v else mapLookup key rest

/-- Lexicographic order of two keys by character code (the byte order of
their UTF-8 encodings). -/
def keyLe : List Char → List Char → Bool
  | [], _ => true
  | _ :: _, [] => false
  | a :: as, b :: bs => if a.toNat < b.toNat then true else if b.toNat < a.toNat then false else keyLe as bs

/-- Insertion of a rendered map entry into a list ordered by key
(fmt prints the entries of a map in key order). -/
def insertByKey (e : String × String) : List (String × String) → List (String × String)
  | [] => [e]
  | x :: rest => if keyLe e.1.data x.1.data then e :: x :: rest else x :: insertByKey e rest

/-- Entries of a map, first occurrence of each key only, ordered by key. -/
def sortedEntries (es : List (String × String)) : List (String × String) :=
  (es.reverse.foldl (fun acc e => insertByKey e (acc.filter (fun x => x.1 ≠ e.1))) [])

mutual
/-- The text `fmt.Sprintf("%v", val)` for a decoded JSON value; the digits
of a float64 are produced by `fmtFloat` (strconv's shortest formatting). -/
def sprintV (fmtFloat : F64 → String) : JSONValue → String
  | .null => "<nil>"
  | .bool b => if b then "true" else "false"
  | .number f => fmtFloat f
  | .string s => s
  | .array xs => "[" ++ " ".intercalate (sprintElems fmtFloat xs) ++ "]"
  | .object m =>
      "map[" ++ " ".intercalate ((sortedEntries (sprintFields fmtFloat m)).map
        (fun e => e.1 ++ ":" ++ e.2)) ++ "]"
/-- The rendered elements of a slice. -/
def sprintElems (fmtFloat : F64 → String) : List JSONValue → List String
  | [] => []
  | x :: xs => sprintV fmtFloat x :: sprintElems fmtFloat xs
/-- The rendered entries of a map. -/
def sprintFields (fmtFloat : F64 → String) : List (String × JSONValue) → List (String × String)
  | [] => []
  | (k, v) :: rest => (k, sprintV fmtFloat v) :: sprintFields fmtFloat rest
end

/-! ## `strings.Split(key, ":")` -/

/-- The pieces of a character list between the occurrences of `sep`. -/
def splitChars (sep : Char) : List Char → List (List Char)
  | [] => [[]]
  | c :: cs =>
    if c = sep then [] :: splitChars sep cs
    else
      match splitChars sep cs with
      | [] => [[c]]
      | w :: ws => (c :: w) :: ws

/-- Go's `strings.Split(s, sep)` for a one-character separator. -/
def stringsSplit (s : String) (sep : Char) : List String :=
  (splitChars sep s.data).map String.mk

/-! ## Content path extractor -/

/-- A Go run-time panic. -/
inductive GoPanic where
  | indexOutOfRange
  deriving DecidableEq, Repr

deriving instance DecidableEq for Except

/-- The function `findValue(keys, data)` of `main.go`. -/
def findValue (fmtFloat : F64 → String) : List String → JSONValue → Except GoPanic (List String)
  | keys, .object currentMap =>
    match keys with
    | [] => .error .indexOutOfRange
    | [key] =>
      match mapLookup key currentMap with
      | some val => .ok [sprintV fmtFloat val]
      | none => .ok []
    | nextKey :: remainingKeys =>
      match mapLookup nextKey currentMap with
      | some nextData => findValue fmtFloat remainingKeys nextData
      | none => .ok []
  | _, _ => .ok []

/-- The key lists of the successive `findValue` invocations started by
`findValue(keys, data)`: the call itself, then each recursive call. -/
def findValueCalls : List String → JSONValue → List (List String)
  | keys, .object currentMap =>
    keys ::
      match keys with
      | [] => []
      | [_] => []
      | nextKey :: remainingKeys =>
        match mapLookup nextKey currentMap with
        | some nextData => findValueCalls remainingKeys nextData
        | none => []
  | keys, _ => [keys]

/-! ## Requests, library calls, scoring messages -/

/-- The fields of `tls.ConnectionState` read by `processData`. -/
structure ConnectionState where
  version : Nat
  handshakeComplete : Bool
  didResume : Bool
  cipherSuite : Nat
  negotiatedProtocol : String
  deriving DecidableEq, Repr

/-- What the handler reads from a `*fasthttp.RequestCtx`. -/
structure RequestCtx where
  /-- Header lines of the request, in order. -/
  headers : List (String × String)
  /-- Value of `ctx.RemoteIP().String()`. -/
  remoteIP : String
  /-- Value of `ctx.UserAgent()`. -/
  userAgent : String
  /-- Value of `ctx.Request.Body()`. -/
  body : List UInt8
  /-- Value of `ctx.ConnTime()`. -/
  connTime : Nat
  /-- Value of `ctx.ConnRequestNum()`. -/
  connRequestNum : Nat
  /-- Value of `ctx.IsTLS()`. -/
  isTLS : Bool
  /-- Value of `ctx.TLSConnectionState()`, `none` for a nil pointer. -/
  tlsConnectionState : Option ConnectionState
  deriving DecidableEq, Repr

/-- The call `ctx.Request.Header.Peek(key)`: the first value under `key`, empty when absent. -/
def RequestCtx.peek (ctx : RequestCtx) (key : String) : String :=
  match ctx.headers.find? (fun h => h.1 = key) with
  | some h => h.2
  | none => ""

/-- The call `ctx.Request.Header.PeekKeys()`. -/
def RequestCtx.peekKeys (ctx : RequestCtx) : List String := ctx.headers.map Prod.fst

/-- The assignment `headers[key] = value` on a `map[string]string`. -/
def headerSet (headers : List (String × String)) (key value : String) : List (String × String) :=
  (key, value) :: headers.filter (fun h => h.1 ≠ key)

/-- The function `getHeadersMap(ctx)` of `main.go`. -/
def getHeadersMap (ctx : RequestCtx) : List (String × String) :=
  ctx.peekKeys.foldl (fun headers key => headerSet headers key (ctx.peek key)) []

/-- The struct `BotDetectorRequest`. -/
structure BotDetectorRequest where
  remoteIP : String
  content : List String
  headers : List (String × String)
  connectionTime : Nat
  connectionRequestNum : Nat
  isTLS : Bool
  userAgent : String
  tlsVersion : Nat
  tlsHandshakeComplete : Bool
  tlsDidResume : Bool
  tlsCipherSuite : Nat
  tlsNegotiatedProtocol : String
  deriving DecidableEq, Repr

/-- The struct `BotDetectorResponse`. -/
structure BotDetectorResponse where
  threat : F64
  deriving DecidableEq, Repr

/-- An outgoing `*http.Request`. -/
structure HttpRequest where
  method : String
  url : String
  body : List UInt8
  deriving DecidableEq, Repr

/-- An `*http.Response` as `processData` sees it: the status code and the
outcome of `io.ReadAll(response.Body)` (`none` when the read fails). -/
structure HttpResponse where
  statusCode : Int
  body : Option (List UInt8)
  deriving DecidableEq, Repr

/-- The library functions called by the pipeline. -/
structure Runtime where
  /-- The call `json.Unmarshal(body, &data)` with `data interface{}`; `none` for an error. -/
  jsonUnmarshal : List UInt8 → Option JSONValue
  /-- The text fmt prints for a float64 under the verb v. -/
  formatFloat : F64 → String
  /-- The call `json.Marshal(&botDetectorRequest)`; `none` for an error. -/
  jsonMarshal : BotDetectorRequest → Option (List UInt8)
  /-- The call `url.JoinPath(base, elem)`; `none` for an error. -/
  urlJoinPath : String → String → Option String
  /-- The call `http.NewRequest(method, url, body)`; `none` for an error. -/
  httpNewRequest : String → String → List UInt8 → Option HttpRequest
  /-- The call `json.Unmarshal(resBody, &botDetectRes)`; `none` for an error. -/
  unmarshalResponse : List UInt8 → Option BotDetectorResponse

/-- The function `getRequestContent(jsonKeys, body)` of `main.go`. -/
def getRequestContent (rt : Runtime) (jsonKeys : List String) (body : List UInt8) :
    Except GoPanic (List String) :=
  if body.length = 0 then .ok []
  else
    match rt.jsonUnmarshal body with
    | none => .ok []
    | some data =>
      jsonKeys.foldlM
        (fun result key =>
          match findValue rt.formatFloat (stringsSplit key ':') data with
          | .ok found => .ok (result ++ found)
          | .error e => .error e)
        []

/-! ## Threat cache -/

/-- The contents of the `sync.Map` `threatMap`: client address to score. -/
abbrev ThreatMap := String → Option F64

/-- The initial `sync.Map{}`. -/
def ThreatMap.empty : ThreatMap := fun _ => none

/-- The call `threatMap.Store(key, value)`. -/
def ThreatMap.store (m : ThreatMap) (key : String) (value : F64) : ThreatMap :=
  fun k => if k = key then some value else m k

/-- The function `lookupThreat(host, sessionID)` of `main.go`. -/
def lookupThreat (threatMap : ThreatMap) (_host sessionID : String) : F64 :=
  match threatMap sessionID with
  | none => F64.zero
  | some threat => threat

/-! ## Scoring call -/

/-- The constant `fasthttp.StatusOK`. -/
def StatusOK : Int := 200

/-- The constant `fasthttp.StatusForbidden`. -/
def StatusForbidden : Int := 403

/-- The constant `http.MethodPost`. -/
def MethodPost : String := "POST"

/-- The line `processData` writes to the log before it returns. -/
inductive LogLine where
  | println (msg : String)
  | processingError (resBody : List UInt8)
  | settingThreat (externalIP : String) (threat : F64) (targetHost : String)
  deriving DecidableEq, Repr

/-- The struct literal `BotDetectorRequest{...}` that `processData` builds
from the request, with the TLS fields zero when there is no TLS state. -/
def buildRequest (ctx : RequestCtx) (content : List String) : BotDetectorRequest :=
  let tls : ConnectionState :=
    match ctx.tlsConnectionState with
    | some tlsConnState => tlsConnState
    | none => ⟨0, false, false, 0, ""⟩
  let externalIP := ctx.remoteIP
  let userAgent := ctx.userAgent
  { remoteIP := externalIP
    content := content
    headers := getHeadersMap ctx
    connectionTime := ctx.connTime
    connectionRequestNum := ctx.connRequestNum
    isTLS := ctx.isTLS
    userAgent := userAgent
    tlsVersion := tls.version
    tlsHandshakeComplete := tls.handshakeComplete
    tlsDidResume := tls.didResume
    tlsCipherSuite := tls.cipherSuite
    tlsNegotiatedProtocol := tls.negotiatedProtocol }

/-- The function `processData` of `main.go`, run on the cache `threatMap`;
`clientDo` is the behaviour of `client.Do` during this call (`none` for a
transport error). The result is the log line and the cache on return. -/
def processData (rt : Runtime) (clientDo : HttpRequest → Option HttpResponse)
    (threatMap : ThreatMap) (ctx : RequestCtx) (botDetectorHost targetHost : String)
    (jsonKeys : List String) : Except GoPanic (LogLine × ThreatMap) :=
  let externalIP := ctx.remoteIP
  match getRequestContent rt jsonKeys ctx.body with
  | .error e => .error e
  | .ok content =>
    let botDetectorRequest := buildRequest ctx content
    match rt.jsonMarshal botDetectorRequest with
    | none => .ok (.println "error while marshaling bot detector request", threatMap)
    | some reqBody =>
      match rt.urlJoinPath botDetectorHost "threat" with
      | none => .ok (.println "error joining threat path", threatMap)
      | some detectThreatPath =>
        match rt.httpNewRequest MethodPost detectThreatPath reqBody with
        | none => .ok (.println "error creating request", threatMap)
        | some request =>
          match clientDo request with
          | none => .ok (.println "error sending request to bot-detector", threatMap)
          | some response =>
            match response.body with
            | none => .ok (.println "error while reading response", threatMap)
            | some resBody =>
              if response.statusCode ≠ StatusOK then .ok (.processingError resBody, threatMap)
              else
                match rt.unmarshalResponse resBody with
                | none => .ok (.println "error while unmarshaling response", threatMap)
                | some botDetectRes =>
                  .ok (.settingThreat externalIP botDetectRes.threat targetHost,
                    threatMap.store externalIP botDetectRes.threat)

/-! ## Route selector and request handler -/

/-- The effects of one run of the request handler, in program order. -/
inductive Action where
  /-- The call `ctx.Response.SetStatusCode(code)`. -/
  | setStatusCode (code : Int)
  /-- The statement `go processData(ctx, botDetectorHost, targetHost, jsonKeys)`. -/
  | goProcessData (ctx : RequestCtx) (botDetectorHost targetHost : String) (jsonKeys : List String)
  /-- The call `frontendHost(ctx)`. -/
  | frontendHost (ctx : RequestCtx)
  /-- The call `backendHost(ctx)`. -/
  | backendHost (ctx : RequestCtx)
  deriving DecidableEq, Repr

/-- The function `handleRequest` of `main.go`. -/
def handleRequest (ctx : RequestCtx) (isFrontendAppHost : Bool) : List Action :=
  if isFrontendAppHost then [Action.frontendHost ctx]
  else [Action.backendHost ctx]

/-- The configuration values `main` reads before it builds `proxyReq`. -/
structure Config where
  botThreashold : F64
  frontendHostname : String
  botDetectorHost : String
  keys : List String
  deriving DecidableEq, Repr

/-- The closure `proxyReq` of `main`, run against the cache `threatMap`. -/
def proxyReq (cfg : Config) (threatMap : ThreatMap) (ctx : RequestCtx) : List Action :=
  let hostHeader := ctx.peek "Host"
  let isFrontendAppHost := hostHeader == cfg.frontendHostname
  let clientIP := ctx.remoteIP
  if clientIP == "" then [Action.setStatusCode StatusForbidden]
  else if F64.gt (lookupThreat threatMap hostHeader clientIP) cfg.botThreashold then
    [Action.setStatusCode StatusForbidden]
  else
    Action.goProcessData ctx cfg.botDetectorHost hostHeader cfg.keys ::
      handleRequest ctx isFrontendAppHost

/-- Whether an action is a call of the frontend upstream handler. -/
def Action.isFrontend : Action → Bool
  | .frontendHost _ => true
  | _ => false

/-- Whether an action is a call of the backend upstream handler. -/
def Action.isBackend : Action → Bool
  | .backendHost _ => true
  | _ => false

/-- Whether an action starts a scoring task. -/
def Action.isSpawn : Action → Bool
  | .goProcessData _ _ _ _ => true
  | _ => false

/-! ## Step model of the running proxy -/

/-- A scoring task started by `go processData(...)` that has not returned yet. -/
structure ScoringTask where
  ctx : RequestCtx
  botDetectorHost : String
  targetHost : String
  jsonKeys : List String
  deriving DecidableEq, Repr

/-- The scoring tasks started by a run of the handler. -/
def spawnedTasks : List Action → List ScoringTask
  | [] => []
  | .goProcessData ctx botDetectorHost targetHost jsonKeys :: rest =>
    ⟨ctx, botDetectorHost, targetHost, jsonKeys⟩ :: spawnedTasks rest
  | _ :: rest => spawnedTasks rest

/-- State of the process: the cache, the running request handlers and the
scoring tasks in flight. A running handler has made its cache read
(`lookupThreat` in `proxyReq`) and is held as the actions it has still to
perform; handlers and tasks run concurrently, so their actions interleave. -/
structure ProxyState where
  threatMap : ThreatMap
  handlers : List (List Action)
  inFlight : List ScoringTask

/-- State at start-up: empty cache, no handler, no task. -/
def ProxyState.init : ProxyState := ⟨ThreatMap.empty, [], []⟩

/-- One step of the process. -/
inductive Event where
  /-- A request arrives and its handler is gated: `proxyReq` runs up to its
  read of the cache, which fixes the actions the handler will perform. -/
  | request (ctx : RequestCtx)
  /-- The handler at position `i` performs its next action; when the action
  is `go processData(...)`, the scoring task is in flight from then on. -/
  | advance (i : Nat)
  /-- The task at position `i` of the tasks in flight runs to its return, with
  `clientDo` as the behaviour of the scoring service for its call. -/
  | complete (i : Nat) (clientDo : HttpRequest → Option HttpResponse)

/-- The state after one step. -/
def step (rt : Runtime) (cfg : Config) (s : ProxyState) : Event → Except GoPanic ProxyState
  | .request ctx =>
    .ok ⟨s.threatMap, s.handlers ++ [proxyReq cfg s.threatMap ctx], s.inFlight⟩
  | .advance i =>
    match s.handlers.get? i with
    | some (action :: rest) =>
      .ok ⟨s.threatMap, s.handlers.set i rest, s.inFlight ++ spawnedTasks [action]⟩
    | _ => .ok s
  | .complete i clientDo =>
    match s.inFlight.get? i with
    | none => .ok s
    | some task =>
      match processData rt clientDo s.threatMap task.ctx task.botDetectorHost task.targetHost
          task.jsonKeys with
      | .error e => .error e
      | .ok res => .ok ⟨res.2, s.handlers, s.inFlight.eraseIdx i⟩

/-- The state after a sequence of steps. -/
def run (rt : Runtime) (cfg : Config) : ProxyState → List Event → Except GoPanic ProxyState
  | s, [] => .ok s
  | s, e :: es =>
    match step rt cfg s e with
    | .ok s1 => run rt cfg s1 es
    | .error err => .error err

/-! ## Specification-side definitions -/

/-- The value a path resolves to, in the words of the specification: walk
the tree from the root; at each segment the current value must be an object
that holds the segment as a key. -/
def resolvePath : List String → JSONValue → Option JSONValue
  | [], v => some v
  | k :: ks, .object m =>
    match mapLookup k m with
    | some next => resolvePath ks next
    | none => none
  | _ :: _, _ => none

/-- The contribution of one configured path string to the output, in the
words of the specification: the text of the value the path resolves to, or
nothing. -/
def pathContribution (rt : Runtime) (data : JSONValue) (path : String) : List String :=
  match resolvePath (stringsSplit path ':') data with
  | some v => [sprintV rt.formatFloat v]
  | none => []

/-- The cache after a sequence of completed writes `threatMap.Store(address, score)`. -/
def applyWrites (m : ThreatMap) (writes : List (String × F64)) : ThreatMap :=
  writes.foldl (fun acc w => acc.store w.1 w.2) m

/-- The transport of a scoring call succeeded: the request was encoded,
addressed and sent without an error, a response arrived and its body was
read. -/
def transportSucceeds (rt : Runtime) (clientDo : HttpRequest → Option HttpResponse)
    (ctx : RequestCtx) (botDetectorHost : String) (content : List String)
    (statusCode : Int) (resBody : List UInt8) : Prop :=
  ∃ reqBody detectThreatPath request,
    rt.jsonMarshal (buildRequest ctx content) = some reqBody ∧
    rt.urlJoinPath botDetectorHost "threat" = some detectThreatPath ∧
    rt.httpNewRequest MethodPost detectThreatPath reqBody = some request ∧
    clientDo request = some ⟨statusCode, some resBody⟩

/-- The response body decodes a numeric threat field, in the words of the
specification: the body is a JSON object whose `threat` field is a number. -/
def decodesNumericThreat (rt : Runtime) (resBody : List UInt8) : Prop :=
  ∃ m threat,
    rt.jsonUnmarshal resBody = some (.object m) ∧ mapLookup "threat" m = some (.number threat)

/-- Success of a scoring call as `processData` decides it: the transport
succeeds, the status is 200 and `json.Unmarshal` of the body into
`BotDetectorResponse` returns no error, with `threat` the decoded field. -/
def scoringSucceeds (rt : Runtime) (clientDo : HttpRequest → Option HttpResponse)
    (ctx : RequestCtx) (botDetectorHost : String) (jsonKeys : List String) (threat : F64) :
    Prop :=
  ∃ content resBody,
    getRequestContent rt jsonKeys ctx.body = .ok content ∧
    transportSucceeds rt clientDo ctx botDetectorHost content StatusOK resBody ∧
    rt.unmarshalResponse resBody = some ⟨threat⟩

/-- Nothing is pending for a client address: no scoring task of the address
is in flight and no running handler has still to start one for it. -/
def NoScoringPending (addr : String) (s : ProxyState) : Prop :=
  (∀ task ∈ s.inFlight, task.ctx.remoteIP ≠ addr) ∧
  ∀ handler ∈ s.handlers, ∀ task ∈ spawnedTasks handler, task.ctx.remoteIP ≠ addr

/-- The statement that a denial lasts: from every state the process can
reach, once a request of a client address is answered 403 because its cached
score exceeds the threshold, the cache entry of that address stays as it is
and every later request from the address is answered 403 as well. -/
def DeniedStaysDenied (rt : Runtime) (cfg : Config) : Prop :=
  ∀ (before after : List Event) (s s1 : ProxyState) (ctx : RequestCtx),
    run rt cfg ProxyState.init before = .ok s →
    ctx.remoteIP ≠ "" →
    F64.gt (lookupThreat s.threatMap (ctx.peek "Host") ctx.remoteIP) cfg.botThreashold = true →
    run rt cfg s (Event.request ctx :: after) = .ok s1 →
      s1.threatMap ctx.remoteIP = s.threatMap ctx.remoteIP ∧
      ∀ later : RequestCtx, later.remoteIP = ctx.remoteIP →
        proxyReq cfg s1.threatMap later = [Action.setStatusCode StatusForbidden]

/-! ## Example data -/

/-- The bytes of an ASCII text. -/
def asciiBytes (text : String) : List UInt8 := text.data.map (fun c => UInt8.ofNat c.toNat)

/-- The body `{"user":{"profile":{"email":"a@b.com"}}}`. -/
def bodyEmail : List UInt8 :=
  asciiBytes "\x7b\"user\":\x7b\"profile\":\x7b\"email\":\"a@b.com\"\x7d\x7d\x7d"

/-- The body `{"user":{}}`. -/
def bodyUserEmpty : List UInt8 := asciiBytes "\x7b\"user\":\x7b\x7d\x7d"

/-- The body `{not json`. -/
def bodyNotJson : List UInt8 := asciiBytes "\x7bnot json"

/-- The tree of `bodyEmail`. -/
def treeEmail : JSONValue :=
  .object [("user", .object [("profile", .object [("email", .string "a@b.com")])])]

/-- The tree of `bodyUserEmpty`. -/
def treeUserEmpty : JSONValue := .object [("user", .object [])]

/-- The float64 value 0.2. -/
def score02 : F64 := ⟨0x3fc999999999999a⟩

/-- The float64 value 0.5. -/
def score05 : F64 := ⟨0x3fe0000000000000⟩

/-- The float64 value 0.8. -/
def score08 : F64 := ⟨0x3fe999999999999a⟩

/-- The float64 value 0.9. -/
def score09 : F64 := ⟨0x3feccccccccccccd⟩

/-- The float64 value -1.0. -/
def scoreMinusOne : F64 := ⟨0xbff0000000000000⟩

/-- The response body `{}`. -/
def bodyEmptyObject : List UInt8 := asciiBytes "\x7b\x7d"

/-- The response body `{"threat":0.2}`. -/
def bodyThreat02 : List UInt8 := asciiBytes "\x7b\"threat\":0.2\x7d"

/-- The response body `{"threat":0.9}`. -/
def bodyThreat09 : List UInt8 := asciiBytes "\x7b\"threat\":0.9\x7d"

/-- A runtime that behaves as the Go libraries do on the bodies and scores
named above, and reports an error on every other body. Decoding into
`BotDetectorResponse` leaves `Threat` at its zero value when the object has
no `threat` key, and returns no error. -/
def exampleRuntime : Runtime where
  jsonUnmarshal := fun body =>
    if body = bodyEmail then some treeEmail
    else if body = bodyUserEmpty then some treeUserEmpty
    else if body = bodyEmptyObject then some (.object [])
    else if body = bodyThreat02 then some (.object [("threat", .number score02)])
    else if body = bodyThreat09 then some (.object [("threat", .number score09)])
    else none
  formatFloat := fun f =>
    if f = F64.zero then "0"
    else if f = score02 then "0.2"
    else if f = score05 then "0.5"
    else if f = score08 then "0.8"
    else if f = score09 then "0.9"
    else if f = scoreMinusOne then "-1"
    else ""
  jsonMarshal := fun _ => some []
  urlJoinPath := fun base elem => some (base ++ "/" ++ elem)
  httpNewRequest := fun method url body => some ⟨method, url, body⟩
  unmarshalResponse := fun resBody =>
    if resBody = bodyEmail then some ⟨F64.zero⟩
    else if resBody = bodyUserEmpty then some ⟨F64.zero⟩
    else if resBody = bodyEmptyObject then some ⟨F64.zero⟩
    else if resBody = bodyThreat02 then some ⟨score02⟩
    else if resBody = bodyThreat09 then some ⟨score09⟩
    else none

/-- A configuration with threshold 0.5. -/
def exampleConfig : Config := ⟨score05, "app.example.com", "http://detector", ["user:profile:email"]⟩

/-- A configuration with threshold -1.0. -/
def negativeConfig : Config := ⟨scoreMinusOne, "app.example.com", "http://detector", []⟩

/-- A request for the frontend hostname from the address 10.0.0.1. -/
def exampleCtx : RequestCtx :=
  ⟨[("Host", "app.example.com")], "10.0.0.1", "curl", [], 0, 1, false, none⟩

/-- A request for another hostname from the address 10.0.0.2. -/
def otherCtx : RequestCtx :=
  ⟨[("Host", "api.example.com")], "10.0.0.2", "curl", [], 0, 1, false, none⟩

/-- A request whose client address is empty. -/
def noAddressCtx : RequestCtx :=
  ⟨[("Host", "app.example.com")], "", "curl", [], 0, 1, false, none⟩

/-- A scoring service that answers 200 with the given body. -/
def serviceAnswers (resBody : List UInt8) : HttpRequest → Option HttpResponse :=
  fun _ => some ⟨200, some resBody⟩

/-- A scoring service that answers 500. -/
def serviceFails : HttpRequest → Option HttpResponse :=
  fun _ => some ⟨500, some []⟩

/-! ## Content path extractor: lemmas -/

theorem splitChars_ne_nil (sep : Char) (cs : List Char) : splitChars sep cs ≠ [] := by
  induction cs with
  | nil => simp [splitChars]
  | cons c cs ih =>
    unfold splitChars
    split
    · simp
    · split <;> simp

theorem stringsSplit_ne_nil (s : String) (sep : Char) : stringsSplit s sep ≠ [] := by
  simp [stringsSplit, splitChars_ne_nil]

theorem findValue_eq_resolve (fmtFloat : F64 → String) :
    ∀ (keys : List String) (data : JSONValue), keys ≠ [] →
      findValue fmtFloat keys data =
        .ok (match resolvePath keys data with
          | some v => [sprintV fmtFloat v]
          | none => [])
  | [], _, h => absurd rfl h
  | [key], data, _ => by
    cases data <;> simp [findValue, resolvePath]
    rename_i m
    cases mapLookup key m <;> simp [resolvePath]
  | nextKey :: k2 :: rest, data, _ => by
    cases data <;> simp [findValue, resolvePath]
    rename_i m
    cases h : mapLookup nextKey m with
    | none => simp
    | some nextData =>
      simp only []
      exact findValue_eq_resolve fmtFloat (k2 :: rest) nextData (by simp)

theorem findValue_contribution (rt : Runtime) (data : JSONValue) (path : String) :
    findValue rt.formatFloat (stringsSplit path ':') data = .ok (pathContribution rt data path) := by
  rw [findValue_eq_resolve _ _ _ (stringsSplit_ne_nil path ':')]
  rfl

theorem pathContribution_length_le (rt : Runtime) (data : JSONValue) (path : String) :
    (pathContribution rt data path).length ≤ 1 := by
  unfold pathContribution
  split <;> simp

theorem collect_eq (rt : Runtime) (data : JSONValue) (jsonKeys : List String)
    (result : List String) :
    jsonKeys.foldlM
        (fun result key =>
          match findValue rt.formatFloat (stringsSplit key ':') data with
          | .ok found => (.ok (result ++ found) : Except GoPanic (List String))
          | .error e => .error e)
        result
      = .ok (result ++ jsonKeys.flatMap (pathContribution rt data)) := by
  have hf : (fun (result : List String) (key : String) =>
      match findValue rt.formatFloat (stringsSplit key ':') data with
      | .ok found => (.ok (result ++ found) : Except GoPanic (List String))
      | .error e => .error e)
      = fun result key => .ok (result ++ pathContribution rt data key) := by
    funext result key
    rw [findValue_contribution]
  rw [hf]
  induction jsonKeys generalizing result with
  | nil => simp [List.foldlM, pure, Except.pure]
  | cons key rest ih =>
    simp only [List.foldlM, bind, Except.bind]
    rw [ih]
    simp

theorem getRequestContent_parsed (rt : Runtime) (jsonKeys : List String) (body : List UInt8)
    (data : JSONValue) (hbody : body ≠ []) (hparse : rt.jsonUnmarshal body = some data) :
    getRequestContent rt jsonKeys body = .ok (jsonKeys.flatMap (pathContribution rt data)) := by
  have hlen : body.length ≠ 0 := by simpa using hbody
  unfold getRequestContent
  rw [if_neg hlen, hparse]
  simpa using collect_eq rt data jsonKeys []

theorem flatMap_contribution_length (rt : Runtime) (data : JSONValue) (jsonKeys : List String) :
    (jsonKeys.flatMap (pathContribution rt data)).length ≤ jsonKeys.length := by
  induction jsonKeys with
  | nil => simp
  | cons key rest ih =>
    have := pathContribution_length_le rt data key
    simp only [List.flatMap_cons, List.length_append, List.length_cons]
    omega

theorem getRequestContent_total (rt : Runtime) (jsonKeys : List String) (body : List UInt8) :
    ∃ out, getRequestContent rt jsonKeys body = .ok out ∧ out.length ≤ jsonKeys.length := by
  by_cases hbody : body = []
  · subst hbody
    exact ⟨[], by simp [getRequestContent], by simp⟩
  · cases hparse : rt.jsonUnmarshal body with
    | none =>
      refine ⟨[], ?_, by simp⟩
      have hlen : body.length ≠ 0 := by simpa using hbody
      unfold getRequestContent
      rw [if_neg hlen, hparse]
    | some data =>
      exact ⟨_, getRequestContent_parsed rt jsonKeys body data hbody hparse,
        flatMap_contribution_length rt data jsonKeys⟩

theorem findValueCalls_spec :
    ∀ (keys : List String) (data : JSONValue), keys ≠ [] →
      ∃ tail, findValueCalls keys data = keys :: tail ∧ [] ∉ tail ∧
        List.Chain (fun a b : List String => b.length < a.length) keys tail
  | [], _, h => absurd rfl h
  | [key], data, _ => by
    cases data <;> exact ⟨[], by simp [findValueCalls], by simp, List.Chain.nil⟩
  | nextKey :: k2 :: rest, data, _ => by
    cases data with
    | object m =>
      cases h : mapLookup nextKey m with
      | none => exact ⟨[], by simp [findValueCalls, h], by simp, List.Chain.nil⟩
      | some nextData =>
        obtain ⟨tail, h1, h2, h3⟩ := findValueCalls_spec (k2 :: rest) nextData (by simp)
        refine ⟨(k2 :: rest) :: tail, by simp [findValueCalls, h, h1], ?_, ?_⟩
        · simp only [List.mem_cons, not_or]
          exact ⟨by simp, h2⟩
        · exact List.Chain.cons (by simp) h3
    | _ => exact ⟨[], by simp [findValueCalls], by simp, List.Chain.nil⟩

theorem findValueCalls_split (key : String) (data : JSONValue) :
    [] ∉ findValueCalls (stringsSplit key ':') data ∧
      List.Chain' (fun a b : List String => b.length < a.length)
        (findValueCalls (stringsSplit key ':') data) := by
  obtain ⟨tail, h1, h2, h3⟩ :=
    findValueCalls_spec (stringsSplit key ':') data (stringsSplit_ne_nil key ':')
  rw [h1]
  refine ⟨?_, h3⟩
  simp only [List.mem_cons, not_or]
  exact ⟨fun h => stringsSplit_ne_nil key ':' h.symm, h2⟩

/-! ## Content path extractor: claims -/

/-- C6: when the segments of a configured path string resolve, from the root
of the parsed body, to a value `v`, the path contributes exactly the one
entry `fmt.Sprintf("%v", v)` to the output of `getRequestContent`, at its
place among the contributions of the other paths; for a string `v` the
entry is the string itself. -/
theorem C6_resolved_path_contributes_text (rt : Runtime) (body : List UInt8)
    (data v : JSONValue) (path : String) (hbody : body ≠ [])
    (hparse : rt.jsonUnmarshal body = some data)
    (hres : resolvePath (stringsSplit path ':') data = some v) :
    findValue rt.formatFloat (stringsSplit path ':') data = .ok [sprintV rt.formatFloat v] ∧
    getRequestContent rt [path] body = .ok [sprintV rt.formatFloat v] ∧
    (∀ front back : List String,
      getRequestContent rt (front ++ path :: back) body =
        .ok (front.flatMap (pathContribution rt data) ++
          sprintV rt.formatFloat v :: back.flatMap (pathContribution rt data))) ∧
    (∀ text : String, v = .string text → getRequestContent rt [path] body = .ok [text]) := by
  have hc : pathContribution rt data path = [sprintV rt.formatFloat v] := by
    simp [pathContribution, hres]
  have h1 : getRequestContent rt [path] body = .ok [sprintV rt.formatFloat v] := by
    rw [getRequestContent_parsed rt [path] body data hbody hparse]
    simp [hc]
  refine ⟨?_, h1, ?_, ?_⟩
  · rw [findValue_contribution, hc]
  · intro front back
    rw [getRequestContent_parsed rt _ body data hbody hparse]
    simp [hc]
  · intro text hv
    rw [h1, hv]
    simp [sprintV]

/-- C6 at the example of the specification: the path `user:profile:email` on
the body holding `a@b.com` yields that address. -/
theorem C6_witness :
    getRequestContent exampleRuntime ["user:profile:email"] bodyEmail = .ok ["a@b.com"] :=
  (C6_resolved_path_contributes_text exampleRuntime bodyEmail treeEmail (.string "a@b.com")
    "user:profile:email" (by decide) rfl rfl).2.1

/-- C7: for a body that parses, the output of `getRequestContent` is the
concatenation, in the order of the configured paths, of the contributions of
the paths; a contribution has at most one entry, a path that does not
resolve contributes nothing, and the output is no longer than the list of
paths. -/
theorem C7_output_concatenates_contributions (rt : Runtime) (jsonKeys : List String)
    (body : List UInt8) (data : JSONValue) (hbody : body ≠ [])
    (hparse : rt.jsonUnmarshal body = some data) :
    getRequestContent rt jsonKeys body = .ok (jsonKeys.flatMap (pathContribution rt data)) ∧
    (∀ path : String, (pathContribution rt data path).length ≤ 1) ∧
    (∀ path : String, resolvePath (stringsSplit path ':') data = none →
      pathContribution rt data path = [] ∧
      findValue rt.formatFloat (stringsSplit path ':') data = .ok []) ∧
    (jsonKeys.flatMap (pathContribution rt data)).length ≤ jsonKeys.length := by
  refine ⟨getRequestContent_parsed rt jsonKeys body data hbody hparse,
    pathContribution_length_le rt data, ?_, flatMap_contribution_length rt data jsonKeys⟩
  intro path hnone
  have hc : pathContribution rt data path = [] := by simp [pathContribution, hnone]
  exact ⟨hc, by rw [findValue_contribution, hc]⟩

/-- C7 at the example of the specification: the path `user:missing` on the
body `{"user":{}}` yields the empty output. -/
theorem C7_witness :
    getRequestContent exampleRuntime ["user:missing"] bodyUserEmpty = .ok [] :=
  (C7_output_concatenates_contributions exampleRuntime ["user:missing"] bodyUserEmpty
    treeUserEmpty (by decide) rfl).1

/-- C8: `getRequestContent` returns the empty sequence, and no panic, for the
empty body and for every body that `json.Unmarshal` rejects. -/
theorem C8_empty_or_unparseable_body (rt : Runtime) (jsonKeys : List String) :
    getRequestContent rt jsonKeys [] = .ok [] ∧
    ∀ body : List UInt8, rt.jsonUnmarshal body = none →
      getRequestContent rt jsonKeys body = .ok [] := by
  refine ⟨by simp [getRequestContent], ?_⟩
  intro body hparse
  unfold getRequestContent
  rw [hparse]
  split <;> rfl

/-- C8 at the example of the specification: the body `{not json`. -/
theorem C8_witness :
    exampleRuntime.jsonUnmarshal bodyNotJson = none ∧
    getRequestContent exampleRuntime ["user:profile:email"] bodyNotJson = .ok [] ∧
    getRequestContent exampleRuntime ["user:profile:email"] [] = .ok [] :=
  ⟨rfl,
    (C8_empty_or_unparseable_body exampleRuntime ["user:profile:email"]).2 bodyNotJson rfl,
    (C8_empty_or_unparseable_body exampleRuntime ["user:profile:email"]).1⟩

/-- C10: `getRequestContent` is total. Splitting a path string never gives
an empty list; in the chain of `findValue` calls started on the segments of
a path no call receives an empty key list and each call receives a strictly
shorter list than the one before; `findValue` returns without an index
panic, and so does `getRequestContent` on every input. -/
theorem C10_getRequestContent_total (rt : Runtime) (jsonKeys : List String)
    (body : List UInt8) (key : String) (data : JSONValue) :
    stringsSplit key ':' ≠ [] ∧
    [] ∉ findValueCalls (stringsSplit key ':') data ∧
    List.Chain' (fun a b : List String => b.length < a.length)
      (findValueCalls (stringsSplit key ':') data) ∧
    (∃ found, findValue rt.formatFloat (stringsSplit key ':') data = .ok found) ∧
    ∃ out, getRequestContent rt jsonKeys body = .ok out := by
  refine ⟨stringsSplit_ne_nil key ':', (findValueCalls_split key data).1,
    (findValueCalls_split key data).2, ⟨_, findValue_contribution rt data key⟩, ?_⟩
  obtain ⟨out, h, _⟩ := getRequestContent_total rt jsonKeys body
  exact ⟨out, h⟩

/-! ## Threat cache and request handler: lemmas -/

theorem F64.gt_false_of_le (x y : F64) (h : F64.le x y = true) : F64.gt x y = false := by
  unfold F64.le at h
  unfold F64.gt
  simp only [Bool.and_eq_true, Bool.not_eq_true', decide_eq_true_eq] at h
  obtain ⟨⟨hx, hy⟩, hk⟩ := h
  simp [hx, hy, hk]

theorem lookupThreat_eq_getD (threatMap : ThreatMap) (host addr : String) :
    lookupThreat threatMap host addr = (threatMap addr).getD F64.zero := by
  unfold lookupThreat
  cases threatMap addr <;> rfl

theorem proxyReq_denied (cfg : Config) (threatMap : ThreatMap) (ctx : RequestCtx)
    (h : ctx.remoteIP = "" ∨
      F64.gt ((threatMap ctx.remoteIP).getD F64.zero) cfg.botThreashold = true) :
    proxyReq cfg threatMap ctx = [Action.setStatusCode StatusForbidden] := by
  unfold proxyReq
  by_cases haddr : ctx.remoteIP = ""
  · simp [haddr]
  · rcases h with h | h
    · exact absurd h haddr
    · simp [haddr, lookupThreat_eq_getD, h]

theorem proxyReq_admitted (cfg : Config) (threatMap : ThreatMap) (ctx : RequestCtx)
    (haddr : ctx.remoteIP ≠ "")
    (hscore : F64.gt ((threatMap ctx.remoteIP).getD F64.zero) cfg.botThreashold = false) :
    proxyReq cfg threatMap ctx =
      Action.goProcessData ctx cfg.botDetectorHost (ctx.peek "Host") cfg.keys ::
        handleRequest ctx (ctx.peek "Host" == cfg.frontendHostname) := by
  unfold proxyReq
  simp [haddr, lookupThreat_eq_getD, hscore]

theorem applyWrites_append (m : ThreatMap) (ws1 ws2 : List (String × F64)) :
    applyWrites m (ws1 ++ ws2) = applyWrites (applyWrites m ws1) ws2 := by
  simp [applyWrites, List.foldl_append]

theorem applyWrites_other (addr : String) (writes : List (String × F64)) :
    ∀ m : ThreatMap, (∀ w ∈ writes, w.1 ≠ addr) → applyWrites m writes addr = m addr := by
  induction writes with
  | nil => intro m _; rfl
  | cons w rest ih =>
    intro m h
    have hw : w.1 ≠ addr := h w (List.mem_cons_self _ _)
    have hrest : ∀ x ∈ rest, x.1 ≠ addr := fun x hx => h x (List.mem_cons_of_mem _ hx)
    show applyWrites (m.store w.1 w.2) rest addr = m addr
    rw [ih _ hrest]
    simp [ThreatMap.store, Ne.symm hw]

/-! ## Threat cache and request handler: claims -/

/-- C1: when the client address is empty, or the cached score of the client
address (0.0 when absent) is strictly greater than the threshold, `proxyReq`
does nothing but set the status 403: it calls neither upstream handler and
starts no `processData` task. -/
theorem C1_denied_request_gets_403_only (cfg : Config) (threatMap : ThreatMap)
    (ctx : RequestCtx)
    (h : ctx.remoteIP = "" ∨
      F64.gt ((threatMap ctx.remoteIP).getD F64.zero) cfg.botThreashold = true) :
    proxyReq cfg threatMap ctx = [Action.setStatusCode 403] ∧
    (proxyReq cfg threatMap ctx).any
      (fun a => a.isFrontend || a.isBackend || a.isSpawn) = false ∧
    spawnedTasks (proxyReq cfg threatMap ctx) = [] := by
  have hp := proxyReq_denied cfg threatMap ctx h
  rw [hp]
  exact ⟨rfl, rfl, rfl⟩

/-- C1 at two inputs: an empty client address, and a cached score 0.9 over
the threshold 0.5. -/
theorem C1_witness :
    proxyReq exampleConfig ThreatMap.empty noAddressCtx = [Action.setStatusCode 403] ∧
    proxyReq exampleConfig (ThreatMap.empty.store "10.0.0.1" score09) exampleCtx =
      [Action.setStatusCode 403] :=
  ⟨(C1_denied_request_gets_403_only exampleConfig ThreatMap.empty noAddressCtx
      (Or.inl rfl)).1,
    (C1_denied_request_gets_403_only exampleConfig (ThreatMap.empty.store "10.0.0.1" score09)
      exampleCtx (Or.inr (by decide))).1⟩

/-- C2 fails as stated: with the threshold -1.0 and an empty cache, a request
with the non-empty client address 10.0.0.1 has no cache entry, and yet
`proxyReq` answers 403 and calls no upstream handler. -/
theorem C2_counterexample :
    exampleCtx.remoteIP ≠ "" ∧
    ThreatMap.empty exampleCtx.remoteIP = none ∧
    proxyReq negativeConfig ThreatMap.empty exampleCtx = [Action.setStatusCode 403] ∧
    (proxyReq negativeConfig ThreatMap.empty exampleCtx).any
      (fun a => a.isFrontend || a.isBackend) = false := by
  decide

/-- C2, amended: for a request with a non-empty client address whose cached
score, taken as 0.0 when the cache has no entry, is less than or equal to
the threshold, `proxyReq` sets no status code (so no 403), starts the scoring
task and calls `handleRequest` with the route decision. -/
theorem C2_request_at_or_below_threshold_is_forwarded (cfg : Config)
    (threatMap : ThreatMap) (ctx : RequestCtx) (haddr : ctx.remoteIP ≠ "")
    (hscore : F64.le ((threatMap ctx.remoteIP).getD F64.zero) cfg.botThreashold = true) :
    proxyReq cfg threatMap ctx =
      Action.goProcessData ctx cfg.botDetectorHost (ctx.peek "Host") cfg.keys ::
        handleRequest ctx (ctx.peek "Host" == cfg.frontendHostname) ∧
    (∀ code : Int, Action.setStatusCode code ∉ proxyReq cfg threatMap ctx) ∧
    (proxyReq cfg threatMap ctx).any (fun a => a.isFrontend || a.isBackend) = true := by
  have hp := proxyReq_admitted cfg threatMap ctx haddr (F64.gt_false_of_le _ _ hscore)
  rw [hp]
  refine ⟨rfl, ?_, ?_⟩
  · intro code
    unfold handleRequest
    split <;> simp
  · unfold handleRequest
    split <;> simp [Action.isFrontend, Action.isBackend]

/-- C2, amended, at two inputs: no cache entry under the threshold 0.5, and a
cached score 0.2 under the threshold 0.5. -/
theorem C2_witness :
    proxyReq exampleConfig ThreatMap.empty exampleCtx =
      [Action.goProcessData exampleCtx "http://detector" "app.example.com"
          ["user:profile:email"],
        Action.frontendHost exampleCtx] ∧
    proxyReq exampleConfig (ThreatMap.empty.store "10.0.0.2" score02) otherCtx =
      [Action.goProcessData otherCtx "http://detector" "api.example.com"
          ["user:profile:email"],
        Action.backendHost otherCtx] :=
  ⟨(C2_request_at_or_below_threshold_is_forwarded exampleConfig ThreatMap.empty exampleCtx
      (by decide) (by decide)).1,
    (C2_request_at_or_below_threshold_is_forwarded exampleConfig
      (ThreatMap.empty.store "10.0.0.2" score02) otherCtx (by decide) (by decide)).1⟩

/-- C3: for an admitted request (non-empty client address, cached score not
over the threshold) `proxyReq` calls the frontend handler and not the
backend handler exactly when the Host header equals the configured frontend
hostname; for every other Host value it calls the backend handler and not
the frontend handler; in both cases it makes exactly one upstream call. -/
theorem C3_host_selects_upstream (cfg : Config) (threatMap : ThreatMap) (ctx : RequestCtx)
    (haddr : ctx.remoteIP ≠ "")
    (hallow : F64.gt (lookupThreat threatMap (ctx.peek "Host") ctx.remoteIP)
      cfg.botThreashold = false) :
    ((Action.frontendHost ctx ∈ proxyReq cfg threatMap ctx ∧
        (proxyReq cfg threatMap ctx).any Action.isBackend = false) ↔
      ctx.peek "Host" = cfg.frontendHostname) ∧
    (ctx.peek "Host" ≠ cfg.frontendHostname →
      Action.backendHost ctx ∈ proxyReq cfg threatMap ctx ∧
        (proxyReq cfg threatMap ctx).any Action.isFrontend = false) ∧
    ((proxyReq cfg threatMap ctx).filter (fun a => a.isFrontend || a.isBackend)).length = 1 := by
  rw [lookupThreat_eq_getD] at hallow
  rw [proxyReq_admitted cfg threatMap ctx haddr hallow]
  by_cases hhost : ctx.peek "Host" = cfg.frontendHostname
  · simp [handleRequest, hhost, Action.isFrontend, Action.isBackend]
  · simp [handleRequest, hhost, Action.isFrontend, Action.isBackend]

/-- C3 at two inputs: the frontend hostname, and a request whose Host header
is absent (empty). -/
theorem C3_witness :
    (((Action.frontendHost exampleCtx ∈ proxyReq exampleConfig ThreatMap.empty exampleCtx ∧
        (proxyReq exampleConfig ThreatMap.empty exampleCtx).any Action.isBackend = false) ↔
      exampleCtx.peek "Host" = exampleConfig.frontendHostname) ∧
      exampleCtx.peek "Host" = exampleConfig.frontendHostname) ∧
    (Action.backendHost ⟨[], "10.0.0.3", "", [], 0, 1, false, none⟩ ∈
        proxyReq exampleConfig ThreatMap.empty ⟨[], "10.0.0.3", "", [], 0, 1, false, none⟩ ∧
      (proxyReq exampleConfig ThreatMap.empty
        ⟨[], "10.0.0.3", "", [], 0, 1, false, none⟩).any Action.isFrontend = false) :=
  ⟨⟨(C3_host_selects_upstream exampleConfig ThreatMap.empty exampleCtx (by decide)
      (by decide)).1, by decide⟩,
    (C3_host_selects_upstream exampleConfig ThreatMap.empty
      ⟨[], "10.0.0.3", "", [], 0, 1, false, none⟩ (by decide) (by decide)).2.1 (by decide)⟩

/-- C5: after a sequence of completed writes `threatMap.Store(address, score)`
applied to a cache, `lookupThreat(host, address)` returns, for every host
argument, the score of the last write for the address; when no write is for
the address it returns what the cache held before, which is 0.0 for the
empty cache; a write to another address does not change the result. -/
theorem C5_lookup_returns_last_write (m : ThreatMap) (host addr : String)
    (writes : List (String × F64)) :
    (∀ (before after : List (String × F64)) (score : F64),
      writes = before ++ (addr, score) :: after → (∀ w ∈ after, w.1 ≠ addr) →
        lookupThreat (applyWrites m writes) host addr = score) ∧
    ((∀ w ∈ writes, w.1 ≠ addr) →
      lookupThreat (applyWrites m writes) host addr = lookupThreat m host addr ∧
      lookupThreat (applyWrites ThreatMap.empty writes) host addr = F64.zero) ∧
    (∀ (other : String) (score : F64), other ≠ addr →
      lookupThreat (m.store other score) host addr = lookupThreat m host addr) := by
  refine ⟨?_, ?_, ?_⟩
  · intro before after score hw hafter
    subst hw
    rw [applyWrites_append]
    show lookupThreat (applyWrites ((applyWrites m before).store addr score) after) host addr
      = score
    unfold lookupThreat
    rw [applyWrites_other addr after _ hafter]
    simp [ThreatMap.store]
  · intro hnone
    unfold lookupThreat
    rw [applyWrites_other addr writes _ hnone, applyWrites_other addr writes _ hnone]
    exact ⟨rfl, rfl⟩
  · intro other score hne
    unfold lookupThreat
    simp [ThreatMap.store, Ne.symm hne]

/-- C5 at the examples of the specification: a lookup before any write gives
0.0; a write of 0.9 then a lookup gives 0.9; completions 0.2 then 0.8 for one
address, with writes for another address in between and after, leave 0.8. -/
theorem C5_witness :
    lookupThreat (applyWrites ThreatMap.empty []) "app.example.com" "10.0.0.1" = F64.zero ∧
    lookupThreat (applyWrites ThreatMap.empty [("10.0.0.1", score09)])
      "app.example.com" "10.0.0.1" = score09 ∧
    lookupThreat
      (applyWrites ThreatMap.empty
        [("10.0.0.1", score02), ("10.0.0.2", score09), ("10.0.0.1", score08),
          ("10.0.0.2", score05)])
      "app.example.com" "10.0.0.1" = score08 :=
  ⟨((C5_lookup_returns_last_write ThreatMap.empty "app.example.com" "10.0.0.1" []).2.1
      (by decide)).2,
    (C5_lookup_returns_last_write ThreatMap.empty "app.example.com" "10.0.0.1"
      [("10.0.0.1", score09)]).1 [] [] score09 rfl (by decide),
    (C5_lookup_returns_last_write ThreatMap.empty "app.example.com" "10.0.0.1"
      [("10.0.0.1", score02), ("10.0.0.2", score09), ("10.0.0.1", score08),
        ("10.0.0.2", score05)]).1
      [("10.0.0.1", score02), ("10.0.0.2", score09)] [("10.0.0.2", score05)] score08 rfl
      (by decide)⟩

/-! ## Scoring call: lemmas -/

theorem scoringSucceeds_iff (rt : Runtime) (clientDo : HttpRequest → Option HttpResponse)
    (ctx : RequestCtx) (botDetectorHost : String) (jsonKeys content : List String)
    (threat : F64) (hcontent : getRequestContent rt jsonKeys ctx.body = .ok content) :
    scoringSucceeds rt clientDo ctx botDetectorHost jsonKeys threat ↔
      ∃ reqBody detectThreatPath request resBody,
        rt.jsonMarshal (buildRequest ctx content) = some reqBody ∧
        rt.urlJoinPath botDetectorHost "threat" = some detectThreatPath ∧
        rt.httpNewRequest MethodPost detectThreatPath reqBody = some request ∧
        clientDo request = some ⟨StatusOK, some resBody⟩ ∧
        rt.unmarshalResponse resBody = some ⟨threat⟩ := by
  constructor
  · rintro ⟨content1, resBody, hc, ⟨reqBody, path, request, h1, h2, h3, h4⟩, h5⟩
    rw [hcontent] at hc
    cases hc
    exact ⟨reqBody, path, request, resBody, h1, h2, h3, h4, h5⟩
  · rintro ⟨reqBody, path, request, resBody, h1, h2, h3, h4, h5⟩
    exact ⟨content, resBody, hcontent, ⟨reqBody, path, request, h1, h2, h3, h4⟩, h5⟩

theorem processData_outcome (rt : Runtime) (clientDo : HttpRequest → Option HttpResponse)
    (threatMap : ThreatMap) (ctx : RequestCtx) (botDetectorHost targetHost : String)
    (jsonKeys : List String) :
    ∃ log after,
      processData rt clientDo threatMap ctx botDetectorHost targetHost jsonKeys
        = .ok (log, after) ∧
      ((∃ threat, scoringSucceeds rt clientDo ctx botDetectorHost jsonKeys threat ∧
          log = .settingThreat ctx.remoteIP threat targetHost ∧
          after = threatMap.store ctx.remoteIP threat) ∨
        ((¬ ∃ threat, scoringSucceeds rt clientDo ctx botDetectorHost jsonKeys threat) ∧
          (∀ ip threat host, log ≠ .settingThreat ip threat host) ∧
          after = threatMap)) := by
  obtain ⟨content, hcontent, _⟩ := getRequestContent_total rt jsonKeys ctx.body
  simp only [scoringSucceeds_iff rt clientDo ctx botDetectorHost jsonKeys content _ hcontent]
  unfold processData
  simp only [hcontent]
  cases h1 : rt.jsonMarshal (buildRequest ctx content) with
  | none =>
    exact ⟨.println "error while marshaling bot detector request", threatMap, rfl,
      Or.inr ⟨by simp, by simp, rfl⟩⟩
  | some reqBody =>
    cases h2 : rt.urlJoinPath botDetectorHost "threat" with
    | none =>
      exact ⟨.println "error joining threat path", threatMap, rfl,
        Or.inr ⟨by simp, by simp, rfl⟩⟩
    | some detectThreatPath =>
      cases h3 : rt.httpNewRequest MethodPost detectThreatPath reqBody with
      | none =>
        exact ⟨.println "error creating request", threatMap, by simp only [h3],
          Or.inr ⟨by simp [h3], by simp, rfl⟩⟩
      | some request =>
        cases h4 : clientDo request with
        | none =>
          exact ⟨.println "error sending request to bot-detector", threatMap,
            by simp only [h3, h4], Or.inr ⟨by simp [h3, h4], by simp, rfl⟩⟩
        | some response =>
          obtain ⟨statusCode, body⟩ := response
          cases body with
          | none =>
            exact ⟨.println "error while reading response", threatMap,
              by simp only [h3, h4], Or.inr ⟨by simp [h3, h4], by simp, rfl⟩⟩
          | some resBody =>
            by_cases hs : statusCode = StatusOK
            · subst hs
              cases h5 : rt.unmarshalResponse resBody with
              | none =>
                exact ⟨.println "error while unmarshaling response", threatMap,
                  by simp [h3, h4, h5], Or.inr ⟨by simp [h3, h4, h5], by simp, rfl⟩⟩
              | some botDetectRes =>
                obtain ⟨threat⟩ := botDetectRes
                exact ⟨.settingThreat ctx.remoteIP threat targetHost,
                  threatMap.store ctx.remoteIP threat, by simp [h3, h4, h5],
                  Or.inl ⟨threat, by simp [h3, h4, h5], rfl, rfl⟩⟩
            · exact ⟨.processingError resBody, threatMap, by simp [h3, h4, hs],
                Or.inr ⟨by simp [h3, h4, hs], by simp, rfl⟩⟩

theorem processData_other_address (rt : Runtime) (clientDo : HttpRequest → Option HttpResponse)
    (threatMap : ThreatMap) (ctx : RequestCtx) (botDetectorHost targetHost : String)
    (jsonKeys : List String) (addr : String) (hne : ctx.remoteIP ≠ addr) :
    ∃ res,
      processData rt clientDo threatMap ctx botDetectorHost targetHost jsonKeys = .ok res ∧
      res.2 addr = threatMap addr := by
  obtain ⟨log, after, h, hcases⟩ :=
    processData_outcome rt clientDo threatMap ctx botDetectorHost targetHost jsonKeys
  refine ⟨(log, after), h, ?_⟩
  rcases hcases with ⟨threat, _, _, hafter⟩ | ⟨_, _, hafter⟩
  · subst hafter
    simp [ThreatMap.store, Ne.symm hne]
  · rw [hafter]

/-! ## Scoring call: claim -/

/-- C4 fails as stated. The cache holds 0.9 for 10.0.0.1 and the scoring
service answers 200 with the body `{}`, which holds no numeric threat field.
`json.Unmarshal` returns no error and leaves `Threat` at 0, so `processData`
logs the new threat and stores 0.0: the lookup of 10.0.0.1 changes from 0.9
to 0.0. -/
theorem C4_counterexample :
    ¬ decodesNumericThreat exampleRuntime bodyEmptyObject ∧
    (ThreatMap.empty.store "10.0.0.1" score09) "10.0.0.1" = some score09 ∧
    (processData exampleRuntime (serviceAnswers bodyEmptyObject)
        (ThreatMap.empty.store "10.0.0.1" score09) exampleCtx "http://detector"
        "app.example.com" ["user:profile:email"]).map
      (fun res => (res.1, res.2 "10.0.0.1", lookupThreat res.2 "app.example.com" "10.0.0.1"))
      = .ok (.settingThreat "10.0.0.1" F64.zero "app.example.com", some F64.zero, F64.zero) ∧
    F64.zero ≠ score09 := by
  refine ⟨?_, by decide, by decide, by decide⟩
  rintro ⟨m, threat, hparse, hfield⟩
  have htree : exampleRuntime.jsonUnmarshal bodyEmptyObject = some (.object []) := rfl
  rw [htree] at hparse
  cases hparse
  cases hfield

/-- C4, amended: a call of `processData` returns, and either it succeeds,
that is the transport succeeds, the status is 200 and `json.Unmarshal` of the
body into `BotDetectorResponse` returns no error, and then it stores the
decoded `Threat` for the snapshot's address; or it does not succeed, and
then the cache on return is the cache before the call, so that the lookup of
every address gives what it gave before. A transport error, a status other
than 200 and a body that `json.Unmarshal` rejects are such outcomes. -/
theorem C4_only_success_writes_cache (rt : Runtime)
    (clientDo : HttpRequest → Option HttpResponse) (threatMap : ThreatMap) (ctx : RequestCtx)
    (botDetectorHost targetHost : String) (jsonKeys : List String) :
    ∃ log after,
      processData rt clientDo threatMap ctx botDetectorHost targetHost jsonKeys
        = .ok (log, after) ∧
      ((∃ threat, scoringSucceeds rt clientDo ctx botDetectorHost jsonKeys threat ∧
          log = .settingThreat ctx.remoteIP threat targetHost ∧
          after = threatMap.store ctx.remoteIP threat) ∨
        ((¬ ∃ threat, scoringSucceeds rt clientDo ctx botDetectorHost jsonKeys threat) ∧
          (∀ ip threat host, log ≠ .settingThreat ip threat host) ∧
          after = threatMap ∧
          (∀ addr : String, after addr = threatMap addr) ∧
          (∀ host addr : String,
            lookupThreat after host addr = lookupThreat threatMap host addr))) ∧
      ((∀ request, clientDo request = none) → after = threatMap) ∧
      ((∀ request response, clientDo request = some response →
          response.statusCode ≠ StatusOK) → after = threatMap) ∧
      ((∀ request response resBody, clientDo request = some response →
          response.body = some resBody → rt.unmarshalResponse resBody = none) →
        after = threatMap) := by
  obtain ⟨log, after, h, hcases⟩ :=
    processData_outcome rt clientDo threatMap ctx botDetectorHost targetHost jsonKeys
  have hfail : (¬ ∃ threat, scoringSucceeds rt clientDo ctx botDetectorHost jsonKeys threat) →
      after = threatMap := by
    intro hno
    rcases hcases with ⟨threat, hs, _, _⟩ | ⟨_, _, hafter⟩
    · exact absurd ⟨threat, hs⟩ hno
    · exact hafter
  refine ⟨log, after, h, ?_, ?_, ?_, ?_⟩
  · rcases hcases with hsucc | ⟨hno, hlog, hafter⟩
    · exact Or.inl hsucc
    · exact Or.inr ⟨hno, hlog, hafter, fun addr => by rw [hafter],
        fun host addr => by rw [hafter]⟩
  · intro hnet
    apply hfail
    rintro ⟨threat, content, resBody, _, ⟨reqBody, path, request, _, _, _, h4⟩, _⟩
    rw [hnet request] at h4
    cases h4
  · intro hstatus
    apply hfail
    rintro ⟨threat, content, resBody, _, ⟨reqBody, path, request, _, _, _, h4⟩, _⟩
    exact hstatus request _ h4 rfl
  · intro hdecode
    apply hfail
    rintro ⟨threat, content, resBody, _, ⟨reqBody, path, request, _, _, _, h4⟩, h5⟩
    rw [hdecode request _ resBody h4 rfl] at h5
    cases h5

/-- C4 at the example of the specification: the scoring service answers 500
while the cache holds 0.9 for the address; the call returns and the cache
still holds 0.9 for it. -/
theorem C4_witness :
    ∃ log after,
      processData exampleRuntime serviceFails (ThreatMap.empty.store "10.0.0.1" score09)
        exampleCtx "http://detector" "app.example.com" ["user:profile:email"]
        = .ok (log, after) ∧
      after "10.0.0.1" = some score09 := by
  obtain ⟨log, after, h, _, _, hstatus, _⟩ :=
    C4_only_success_writes_cache exampleRuntime serviceFails
      (ThreatMap.empty.store "10.0.0.1" score09) exampleCtx "http://detector"
      "app.example.com" ["user:profile:email"]
  refine ⟨log, after, h, ?_⟩
  rw [hstatus ?_]
  · decide
  · intro request response hr
    simp only [serviceFails, Option.some.injEq] at hr
    rw [← hr]
    decide

/-! ## Step model: lemmas -/

theorem spawnedTasks_proxyReq (cfg : Config) (threatMap : ThreatMap) (ctx : RequestCtx)
    (task : ScoringTask) (h : task ∈ spawnedTasks (proxyReq cfg threatMap ctx)) :
    task.ctx = ctx ∧
      F64.gt ((threatMap ctx.remoteIP).getD F64.zero) cfg.botThreashold = false := by
  by_cases hden : ctx.remoteIP = "" ∨
      F64.gt ((threatMap ctx.remoteIP).getD F64.zero) cfg.botThreashold = true
  · rw [proxyReq_denied cfg threatMap ctx hden] at h
    simp [spawnedTasks] at h
  · simp only [not_or, Bool.not_eq_true] at hden
    rw [proxyReq_admitted cfg threatMap ctx hden.1 hden.2] at h
    refine ⟨?_, hden.2⟩
    unfold handleRequest at h
    split at h <;> simp [spawnedTasks] at h <;> rw [h]

theorem spawnedTasks_cons (action : Action) (rest : List Action) :
    spawnedTasks (action :: rest) = spawnedTasks [action] ++ spawnedTasks rest := by
  cases action <;> simp [spawnedTasks]

theorem step_keeps_blocked (rt : Runtime) (cfg : Config) (addr : String) (s : ProxyState)
    (e : Event)
    (hscore : F64.gt ((s.threatMap addr).getD F64.zero) cfg.botThreashold = true)
    (hquiet : NoScoringPending addr s) :
    ∃ s1, step rt cfg s e = .ok s1 ∧ s1.threatMap addr = s.threatMap addr ∧
      NoScoringPending addr s1 := by
  obtain ⟨hidle, hhandlers⟩ := hquiet
  cases e with
  | request ctx =>
    refine ⟨_, rfl, rfl, hidle, ?_⟩
    intro handler hmem task htask
    simp only [List.mem_append, List.mem_singleton] at hmem
    rcases hmem with hmem | hmem
    · exact hhandlers handler hmem task htask
    · subst hmem
      obtain ⟨hctx, hgt⟩ := spawnedTasks_proxyReq cfg s.threatMap ctx task htask
      intro heq
      rw [hctx] at heq
      rw [heq, hscore] at hgt
      cases hgt
  | advance i =>
    cases hi : s.handlers.get? i with
    | none => exact ⟨s, by simp only [step, hi], rfl, hidle, hhandlers⟩
    | some handler =>
      cases handler with
      | nil => exact ⟨s, by simp only [step, hi], rfl, hidle, hhandlers⟩
      | cons action rest =>
        have hold := hhandlers (action :: rest) (List.get?_mem hi)
        rw [spawnedTasks_cons] at hold
        refine ⟨⟨s.threatMap, s.handlers.set i rest, s.inFlight ++ spawnedTasks [action]⟩,
          by simp only [step, hi], rfl, ?_, ?_⟩
        · intro task htask
          simp only [List.mem_append] at htask
          rcases htask with h | h
          · exact hidle task h
          · exact hold task (List.mem_append_left _ h)
        · intro handler hmem task htask
          rcases List.mem_or_eq_of_mem_set hmem with h | h
          · exact hhandlers handler h task htask
          · subst h
            exact hold task (List.mem_append_right _ htask)
  | complete i clientDo =>
    cases hi : s.inFlight.get? i with
    | none => exact ⟨s, by simp only [step, hi], rfl, hidle, hhandlers⟩
    | some task =>
      obtain ⟨res, hres, haddr⟩ :=
        processData_other_address rt clientDo s.threatMap task.ctx task.botDetectorHost
          task.targetHost task.jsonKeys addr (hidle task (List.get?_mem hi))
      exact ⟨⟨res.2, s.handlers, s.inFlight.eraseIdx i⟩, by simp only [step, hi, hres], haddr,
        fun t ht => hidle t (List.mem_of_mem_eraseIdx ht), hhandlers⟩

theorem run_keeps_blocked (rt : Runtime) (cfg : Config) (addr : String) (events : List Event) :
    ∀ s : ProxyState,
      F64.gt ((s.threatMap addr).getD F64.zero) cfg.botThreashold = true →
      NoScoringPending addr s →
      ∃ s1, run rt cfg s events = .ok s1 ∧ s1.threatMap addr = s.threatMap addr := by
  induction events with
  | nil => intro s _ _; exact ⟨s, rfl, rfl⟩
  | cons e rest ih =>
    intro s hscore hquiet
    obtain ⟨s1, hstep, hmap, hquiet1⟩ := step_keeps_blocked rt cfg addr s e hscore hquiet
    obtain ⟨s2, hrun, hmap2⟩ := ih s1 (by rw [hmap]; exact hscore) hquiet1
    refine ⟨s2, ?_, by rw [hmap2, hmap]⟩
    unfold run
    simp only [hstep]
    exact hrun

/-- A task in flight at the denial lifts it. With the threshold 0.5: two
requests from 10.0.0.1 are admitted and start their scoring tasks; the first
task stores 0.9, so that the next request from 10.0.0.1 is answered 403; then
the second task stores 0.2 and a request from 10.0.0.1 is admitted again. -/
theorem denial_lifted_by_task_in_flight :
    (run exampleRuntime exampleConfig ProxyState.init
        [.request exampleCtx, .advance 0, .request exampleCtx, .advance 1,
          .complete 0 (serviceAnswers bodyThreat09)]).map
      (fun s => (s.threatMap "10.0.0.1", s.inFlight.length,
        proxyReq exampleConfig s.threatMap exampleCtx))
      = .ok (some score09, 1, [Action.setStatusCode 403]) ∧
    (run exampleRuntime exampleConfig ProxyState.init
        [.request exampleCtx, .advance 0, .request exampleCtx, .advance 1,
          .complete 0 (serviceAnswers bodyThreat09), .request exampleCtx,
          .complete 0 (serviceAnswers bodyThreat02)]).map
      (fun s => (s.threatMap "10.0.0.1",
        (proxyReq exampleConfig s.threatMap exampleCtx).any Action.isFrontend))
      = .ok (some score02, true) := by
  decide

/-! ## Step model: claim -/

/-- C9 fails as stated. With the threshold 0.5: a first request from
10.0.0.1 is admitted and starts its scoring task; a second request from
10.0.0.1 passes the gate and has not yet started its task; the first task
stores 0.9. Now no task is in flight and a third request from 10.0.0.1 is
denied. Then the second handler starts its task, the task stores 0.2, the
cache entry has changed and the next request from 10.0.0.1 is admitted. -/
theorem C9_counterexample : ¬ DeniedStaysDenied exampleRuntime exampleConfig := by
  intro h
  have h1 := h
    [.request exampleCtx, .advance 0, .request exampleCtx,
      .complete 0 (serviceAnswers bodyThreat09)]
    [.advance 1, .complete 0 (serviceAnswers bodyThreat02)]
    ⟨ThreatMap.empty.store "10.0.0.1" score09,
      [[Action.frontendHost exampleCtx],
        [Action.goProcessData exampleCtx "http://detector" "app.example.com"
            ["user:profile:email"],
          Action.frontendHost exampleCtx]],
      []⟩
    ⟨(ThreatMap.empty.store "10.0.0.1" score09).store "10.0.0.1" score02,
      [[Action.frontendHost exampleCtx], [Action.frontendHost exampleCtx],
        [Action.setStatusCode 403]],
      []⟩
    exampleCtx rfl (by decide) (by decide) rfl
  exact absurd h1.1 (by decide)

/-- C9, amended: when a request from a client address is denied because the
cached score of the address exceeds the threshold, and at that moment no
scoring task for that address is in flight and no running handler of a
request from that address has still to start one, then whatever steps
follow, the process keeps running, the cache entry of the address stays as
it is, and every later request from the address is answered 403 and nothing
else. -/
theorem C9_denied_with_no_scoring_pending_stays_denied (rt : Runtime) (cfg : Config)
    (s : ProxyState) (ctx : RequestCtx) (later : List Event)
    (hscore : F64.gt (lookupThreat s.threatMap (ctx.peek "Host") ctx.remoteIP)
      cfg.botThreashold = true)
    (hquiet : NoScoringPending ctx.remoteIP s) :
    proxyReq cfg s.threatMap ctx = [Action.setStatusCode 403] ∧
    ∃ s1, run rt cfg s (Event.request ctx :: later) = .ok s1 ∧
      s1.threatMap ctx.remoteIP = s.threatMap ctx.remoteIP ∧
      ∀ next : RequestCtx, next.remoteIP = ctx.remoteIP →
        proxyReq cfg s1.threatMap next = [Action.setStatusCode 403] := by
  rw [lookupThreat_eq_getD] at hscore
  refine ⟨proxyReq_denied cfg s.threatMap ctx (Or.inr hscore), ?_⟩
  obtain ⟨s1, hrun, hmap⟩ :=
    run_keeps_blocked rt cfg ctx.remoteIP (Event.request ctx :: later) s hscore hquiet
  refine ⟨s1, hrun, hmap, ?_⟩
  intro next hnext
  apply proxyReq_denied
  right
  rw [hnext, hmap]
  exact hscore

/-- C9, amended, at an input: the cache holds 0.9 for 10.0.0.1 under the
threshold 0.5, a handler of a request from 10.0.0.2 has still to start its
task and nothing is pending for 10.0.0.1; after the denied request, the
start and the completion with 0.2 of the task of 10.0.0.2, a further request
from 10.0.0.2 and the steps of its handler, the entry of 10.0.0.1 is still
0.9 and its request is denied. -/
theorem C9_witness :
    ∃ s1,
      run exampleRuntime exampleConfig
        ⟨ThreatMap.empty.store "10.0.0.1" score09,
          [proxyReq exampleConfig ThreatMap.empty otherCtx], []⟩
        [.request exampleCtx, .advance 0, .complete 0 (serviceAnswers bodyThreat02),
          .advance 1, .request otherCtx, .advance 2, .advance 2, .complete 0 serviceFails]
        = .ok s1 ∧
      s1.threatMap "10.0.0.1" = some score09 ∧
      proxyReq exampleConfig s1.threatMap exampleCtx = [Action.setStatusCode 403] := by
  obtain ⟨_, s1, hrun, hmap, hnext⟩ :=
    C9_denied_with_no_scoring_pending_stays_denied exampleRuntime exampleConfig
      ⟨ThreatMap.empty.store "10.0.0.1" score09,
        [proxyReq exampleConfig ThreatMap.empty otherCtx], []⟩
      exampleCtx
      [.advance 0, .complete 0 (serviceAnswers bodyThreat02), .advance 1, .request otherCtx,
        .advance 2, .advance 2, .complete 0 serviceFails]
      (by decide) (by unfold NoScoringPending; decide)
  exact ⟨s1, hrun, hmap, hnext exampleCtx rfl⟩

end BotProxy
